import Mathlib

/-!
# Verification of the rally_app race simulation and settlement engine

Shallow embedding of the race-relevant part of `src/rally_app.py`
(the module-level "Start Race!" handler, lines 140-188) over exact
rational arithmetic.  Python float literals are embedded as the
rationals they denote (`1.05 = 21/20`, `0.1 = 1/10`, `0.8 = 4/5`);
the `random.uniform` draw for `luck_factor` is modelled as an explicit
parameter, and the handler's database writes are modelled as an emitted
event trace.
-/

namespace RallyApp

/-- One row of `cars_df`: a car joined with its category's physical data
and its driver's skill/luck, exactly the columns the simulation reads. -/
structure Entrant where
  teamName : String
  driverName : String
  carModel : String
  horsepower : ℚ
  drivetrain : String
  minWeightKg : ℚ
  skillLevel : ℚ
  luckLevel : ℚ
deriving Repr, DecidableEq

/-- `power_to_weight = car['HORSEPOWER'] / car['MIN_WEIGHT_KG']`
(rally_app.py line 160). -/
def power_to_weight (car : Entrant) : ℚ :=
  car.horsepower / car.minWeightKg

/-- `drivetrain_bonus = 1.05 if car['DRIVETRAIN'] == '4WD' else 1.0`
(rally_app.py line 161); Python `==` on strings is exact, case-sensitive
equality. -/
def drivetrain_bonus (d : String) : ℚ :=
  if d = "4WD" then 21/20 else 1

/-- `skill_factor = 1 + ((car['SKILL_LEVEL'] - 50) / 50) * 0.1`
(rally_app.py line 162). -/
def skill_factor (s : ℚ) : ℚ :=
  1 + ((s - 50) / 50) * (1/10)

/-- Lower end of the `random.uniform` interval for luck
(rally_app.py line 163): `1 - (car['LUCK_LEVEL'] / 1000)`. -/
def luck_lo (l : ℚ) : ℚ := 1 - l / 1000

/-- Upper end of the `random.uniform` interval for luck
(rally_app.py line 163): `1 + (car['LUCK_LEVEL'] / 1000)`. -/
def luck_hi (l : ℚ) : ℚ := 1 + l / 1000

/-- `performance_score = power_to_weight * drivetrain_bonus * skill_factor
* luck_factor` (rally_app.py line 165), with the drawn `luck_factor`
passed explicitly. -/
def performance_score (car : Entrant) (luck_factor : ℚ) : ℚ :=
  power_to_weight car * drivetrain_bonus car.drivetrain *
    skill_factor car.skillLevel * luck_factor

/-- `time_taken = 100 / performance_score` (rally_app.py line 166),
as total rational division. -/
def time_taken (car : Entrant) (luck_factor : ℚ) : ℚ :=
  100 / performance_score car luck_factor

/-- Python division: it raises `ZeroDivisionError` on a zero divisor
instead of returning a value, so the embedding is `Option`-valued,
`none` marking the uncaught exception. -/
def pyDiv (a b : ℚ) : Option ℚ :=
  if b = 0 then none else some (a / b)

/-- Line 166 of rally_app.py with Python's division semantics: the source
has no guard, so a zero `performance_score` is an uncaught crash (`none`)
and a negative one yields a negative time. -/
def time_taken_py (car : Entrant) (luck_factor : ℚ) : Option ℚ :=
  pyDiv 100 (performance_score car luck_factor)

/-- One row of `results_df` (rally_app.py lines 168-171). -/
structure RaceResult where
  team : String
  driver : String
  carModel : String
  time : ℚ
deriving Repr, DecidableEq, Inhabited

/-- Build one `race_results` row for a car and its drawn luck factor
(rally_app.py lines 159-171). -/
def simEntrant (car : Entrant) (luck_factor : ℚ) : RaceResult :=
  { team := car.teamName
    driver := car.driverName
    carModel := car.carModel
    time := time_taken car luck_factor }

/-- The simulation loop `for _, car in cars_df.iterrows()` (lines 159-172):
car `i` consumes the `i`-th draw of the shared random source, modelled as
the stream `luck : ℕ → ℚ`. -/
def simulateAll (cars : List Entrant) (luck : ℕ → ℚ) : List RaceResult :=
  cars.enum.map fun p => simEntrant p.2 (luck p.1)

/-- `results_df = pd.DataFrame(race_results).sort_values(by="Time")`
(line 175): sort the result rows ascending by the `Time` column. -/
def sortResults (rs : List RaceResult) : List RaceResult :=
  rs.insertionSort fun a b => a.time ≤ b.time

/-- `cars_df['TEAM_NAME'].unique()` (lines 146 and 151): the distinct
values in first-appearance order, as pandas `unique` returns them. -/
def uniqueFirst : List String → List String
  | [] => []
  | x :: xs => x :: uniqueFirst (xs.filter fun y => y ≠ x)
termination_by l => l.length
decreasing_by
  simp only [List.length_cons]
  exact Nat.lt_succ_of_le (List.length_filter_le _ _)

/-- The team names of the entrants, in `cars_df` row order. -/
def teamsOf (cars : List Entrant) : List String :=
  cars.map Entrant.teamName

/-- `FEE = 1000` (rally_app.py line 145). -/
def FEE : ℚ := 1000

/-- `PRIZE = len(cars_df['TEAM_NAME'].unique()) * FEE * 0.8`
(rally_app.py line 146). -/
def PRIZE (cars : List Entrant) : ℚ :=
  (uniqueFirst (teamsOf cars)).length * FEE * (4/5)

/-- Observable actions of the Start Race! handler: the warning on too few
cars, each budget UPDATE (fee debit / prize credit), and the simulation
of each entrant (by its row index). -/
inductive Event where
  | warn : Event
  | feeDebit : String → ℚ → Event
  | simulate : ℕ → Event
  | prizeCredit : String → ℚ → Event
deriving Repr, DecidableEq

/-- The Start Race! handler (rally_app.py lines 140-188) as the trace of
events it performs: length guard, fee UPDATE per distinct team, the
simulation loop, then one prize UPDATE to `results_df.iloc[0]`'s team. -/
def runRace (cars : List Entrant) (luck : ℕ → ℚ) : List Event :=
  if cars.length < 2 then [Event.warn]
  else
    let fees := (uniqueFirst (teamsOf cars)).map fun t => Event.feeDebit t FEE
    let sims := (List.range cars.length).map Event.simulate
    let winner := (sortResults (simulateAll cars luck)).headI
    fees ++ sims ++ [Event.prizeCredit winner.team (PRIZE cars)]

/-- Is an event a budget UPDATE (a ledger delta)? -/
def Event.isLedger : Event → Bool
  | .feeDebit _ _ => true
  | .prizeCredit _ _ => true
  | _ => false

/-- Is an event a fee debit? -/
def Event.isFee : Event → Bool
  | .feeDebit _ _ => true
  | _ => false

/-- Is an event a simulation step? -/
def Event.isSim : Event → Bool
  | .simulate _ => true
  | _ => false

/-- Is an event a prize credit? -/
def Event.isPrize : Event → Bool
  | .prizeCredit _ _ => true
  | _ => false

/-- The spec's closed-form Performance Model, transcribed from its own
words: `time_taken = 100 / ((h / w) * b * (1 + ((s - 50) / 50) * 0.1) * l)`
with `b = 1.05` exactly for the all-wheel (`"4WD"`) category. -/
def specTimeFormula (h w : ℚ) (d : String) (s l : ℚ) : ℚ :=
  100 / ((h / w) * (if d = "4WD" then 21/20 else 1) *
    (1 + ((s - 50) / 50) * (1/10)) * l)

/-- Concrete entrant from the spec's two-entrant scenario (§8):
Team A, 200 hp, 1000 kg, 4WD, skill 50. -/
def carA : Entrant :=
  { teamName := "Team A", driverName := "Alice", carModel := "Alpha"
    horsepower := 200, drivetrain := "4WD", minWeightKg := 1000
    skillLevel := 50, luckLevel := 50 }

/-- Concrete entrant from the spec's two-entrant scenario (§8):
Team B, 150 hp, 1000 kg, non-4WD, skill 50. -/
def carB : Entrant :=
  { teamName := "Team B", driverName := "Bob", carModel := "Beta"
    horsepower := 150, drivetrain := "RWD", minWeightKg := 1000
    skillLevel := 50, luckLevel := 50 }

/-- An entrant with zero horsepower: malformed input the spec's
Performance Model must reject with `InvalidEntrant`. -/
def carZeroHp : Entrant :=
  { teamName := "Team Z", driverName := "Zed", carModel := "Zero"
    horsepower := 0, drivetrain := "RWD", minWeightKg := 1000
    skillLevel := 50, luckLevel := 50 }

/-- An entrant with negative horsepower: malformed input the spec's
Performance Model must reject with `InvalidEntrant`. -/
def carNegHp : Entrant :=
  { teamName := "Team N", driverName := "Ned", carModel := "Neg"
    horsepower := -100, drivetrain := "RWD", minWeightKg := 1000
    skillLevel := 50, luckLevel := 50 }

/-! ## Helper lemmas -/

/-- Membership in `uniqueFirst` is membership in the original list. -/
theorem mem_uniqueFirst (t : String) (l : List String) :
    t ∈ uniqueFirst l ↔ t ∈ l := by
  induction l using uniqueFirst.induct with
  | case1 => simp [uniqueFirst]
  | case2 x xs ih =>
    rw [uniqueFirst]
    simp only [List.mem_cons, ih, List.mem_filter]
    by_cases h : t = x <;> simp [h]

/-- `uniqueFirst` has no duplicates. -/
theorem nodup_uniqueFirst (l : List String) : (uniqueFirst l).Nodup := by
  induction l using uniqueFirst.induct with
  | case1 => simp [uniqueFirst]
  | case2 x xs ih =>
    rw [uniqueFirst, List.nodup_cons]
    refine ⟨fun hx => ?_, ih⟩
    rw [mem_uniqueFirst] at hx
    simp [List.mem_filter] at hx

/-- Every member of the original list occurs exactly once in
`uniqueFirst`. -/
theorem count_uniqueFirst (t : String) (l : List String) (h : t ∈ l) :
    (uniqueFirst l).count t = 1 :=
  List.count_eq_one_of_mem (nodup_uniqueFirst l) ((mem_uniqueFirst t l).mpr h)

/-- The length of `uniqueFirst l` is the number of distinct values of
`l`. -/
theorem length_uniqueFirst (l : List String) :
    (uniqueFirst l).length = l.toFinset.card := by
  have hset : (uniqueFirst l).toFinset = l.toFinset := by
    ext t
    simp [List.mem_toFinset, mem_uniqueFirst]
  rw [← hset, List.toFinset_card_of_nodup (nodup_uniqueFirst l)]

/-- In a concatenation where `p`-events occur only in the first part and
`q`-events only in the second, every `p`-event's index precedes every
`q`-event's index. -/
theorem index_lt_of_append {α : Type} (p q : α → Bool) (l₁ l₂ : List α)
    (hp : ∀ e ∈ l₂, p e = false) (hq : ∀ e ∈ l₁, q e = false)
    (i j : ℕ) (hi : i < (l₁ ++ l₂).length) (hj : j < (l₁ ++ l₂).length)
    (hpi : p ((l₁ ++ l₂)[i]) = true) (hqj : q ((l₁ ++ l₂)[j]) = true) :
    i < j := by
  have hi1 : i < l₁.length := by
    by_contra hle
    push_neg at hle
    have hmem : (l₁ ++ l₂)[i] ∈ l₂ := by
      rw [List.getElem_append_right hle]
      exact List.getElem_mem _
    rw [hp _ hmem] at hpi
    exact Bool.false_ne_true hpi
  have hj1 : l₁.length ≤ j := by
    by_contra hlt
    push_neg at hlt
    have hmem : (l₁ ++ l₂)[j] ∈ l₁ := by
      rw [List.getElem_append_left hlt]
      exact List.getElem_mem _
    rw [hq _ hmem] at hqj
    exact Bool.false_ne_true hqj
  omega

/-- Unfolding of `runRace` in the successful (≥ 2 entrants) branch. -/
theorem runRace_of_two_le (cars : List Entrant) (luck : ℕ → ℚ)
    (h : 2 ≤ cars.length) :
    runRace cars luck =
      ((uniqueFirst (teamsOf cars)).map fun t => Event.feeDebit t FEE) ++
        ((List.range cars.length).map Event.simulate ++
          [Event.prizeCredit
            (sortResults (simulateAll cars luck)).headI.team (PRIZE cars)]) := by
  rw [runRace, if_neg (by omega), List.append_assoc]

/-- The skill factor is positive for any skill level ≥ 1. -/
theorem skill_factor_pos (s : ℚ) (h : 1 ≤ s) : 0 < skill_factor s := by
  unfold skill_factor
  nlinarith

/-- The drivetrain bonus is positive for any drivetrain string. -/
theorem drivetrain_bonus_pos (d : String) : 0 < drivetrain_bonus d := by
  unfold drivetrain_bonus
  split <;> norm_num

/-- Any luck factor drawn from the source's interval is positive when
the luck level is at most 100. -/
theorem luck_factor_pos (l lf : ℚ) (hl : l ≤ 100) (hlo : luck_lo l ≤ lf) :
    0 < lf := by
  unfold luck_lo at hlo
  linarith

/-- The performance score is positive whenever all four factors are. -/
theorem performance_score_pos (car : Entrant) (lf : ℚ)
    (hhp : 0 < car.horsepower) (hw : 0 < car.minWeightKg)
    (hs : 1 ≤ car.skillLevel) (hl : car.luckLevel ≤ 100)
    (hlo : luck_lo car.luckLevel ≤ lf) :
    0 < performance_score car lf := by
  unfold performance_score
  have h1 : 0 < power_to_weight car := div_pos hhp hw
  have h2 := drivetrain_bonus_pos car.drivetrain
  have h3 := skill_factor_pos car.skillLevel hs
  have h4 := luck_factor_pos car.luckLevel lf hl hlo
  positivity

/-! ## Claim theorems -/

/-- Claim C1: for every entrant and every drawn luck factor value, the
Performance Model's `time_taken` equals the spec's closed formula
`100 / ((h / w) * b * (1 + ((s - 50) / 50) * 0.1) * l)` with `b = 1.05`
exactly for the all-wheel (`"4WD"`) category and `1.0` otherwise.  The
`random.uniform` draw is modelled by the explicit parameter
`luck_factor`, which ranges over every value the draw can produce. -/
theorem time_taken_eq_specTimeFormula (car : Entrant) (luck_factor : ℚ) :
    time_taken car luck_factor =
      specTimeFormula car.horsepower car.minWeightKg car.drivetrain
        car.skillLevel luck_factor := rfl

/-- Claim C2 (code bug): the source has no `InvalidEntrant` guard.  With
zero horsepower the division `100 / performance_score` is an uncaught
`ZeroDivisionError` (modelled as `none`), and with negative horsepower it
silently computes the malformed negative time `-1000`. -/
theorem no_invalid_entrant_guard :
    time_taken_py carZeroHp 1 = none ∧
      time_taken_py carNegHp 1 = some (-1000) ∧ ((-1000 : ℚ) < 0) := by
  have hb : drivetrain_bonus "RWD" = 1 := by
    rw [drivetrain_bonus, if_neg (by decide)]
  refine ⟨?_, ?_, by norm_num⟩
  · have hs : performance_score carZeroHp 1 = 0 := by
      norm_num [performance_score, power_to_weight, hb,
        skill_factor, carZeroHp]
    unfold time_taken_py pyDiv
    rw [hs]
    norm_num
  · have hs : performance_score carNegHp 1 = -(1/10) := by
      norm_num [performance_score, power_to_weight, hb,
        skill_factor, carNegHp]
    unfold time_taken_py pyDiv
    rw [hs]
    norm_num

/-- Claim C3: with fewer than 2 entrants the handler only emits the
user-facing warning — no fee debit, no prize credit, no other event. -/
theorem runRace_abort_of_lt_two (cars : List Entrant) (luck : ℕ → ℚ)
    (h : cars.length < 2) :
    runRace cars luck = [Event.warn] ∧
      ∀ e ∈ runRace cars luck, e.isLedger = false := by
  have hr : runRace cars luck = [Event.warn] := by rw [runRace, if_pos h]
  refine ⟨hr, ?_⟩
  rw [hr]
  intro e he
  rw [List.mem_singleton] at he
  subst he
  rfl

/-- Witness for C3 at the one-entrant snapshot `[carA]`. -/
theorem runRace_abort_of_lt_two_witness :
    [carA].length < 2 ∧
      (runRace [carA] (fun _ => 1) = [Event.warn] ∧
        ∀ e ∈ runRace [carA] (fun _ => 1), e.isLedger = false) :=
  ⟨by decide, runRace_abort_of_lt_two [carA] (fun _ => 1) (by decide)⟩

/-- Claim C8: with valid inputs (positive horsepower and weight, skill
and luck levels in `[1,100]`) and any luck factor drawn from
`[1 - luck/1000, 1 + luck/1000]`, the computed `time_taken` is strictly
positive. -/
theorem time_taken_pos_of_valid (car : Entrant) (lf : ℚ)
    (hhp : 0 < car.horsepower) (hw : 0 < car.minWeightKg)
    (hs1 : 1 ≤ car.skillLevel) (hs2 : car.skillLevel ≤ 100)
    (hl1 : 1 ≤ car.luckLevel) (hl2 : car.luckLevel ≤ 100)
    (hlo : luck_lo car.luckLevel ≤ lf) (hhi : lf ≤ luck_hi car.luckLevel) :
    0 < time_taken car lf := by
  unfold time_taken
  exact div_pos (by norm_num) (performance_score_pos car lf hhp hw hs1 hl2 hlo)

/-- Witness for C8 at `carA` with luck factor 1. -/
theorem time_taken_pos_of_valid_witness :
    (0 < carA.horsepower ∧ 0 < carA.minWeightKg ∧ 1 ≤ carA.skillLevel ∧
      carA.skillLevel ≤ 100 ∧ 1 ≤ carA.luckLevel ∧ carA.luckLevel ≤ 100 ∧
      luck_lo carA.luckLevel ≤ 1 ∧ (1 : ℚ) ≤ luck_hi carA.luckLevel) ∧
    0 < time_taken carA 1 :=
  ⟨by norm_num [carA, luck_lo, luck_hi],
    time_taken_pos_of_valid carA 1 (by norm_num [carA]) (by norm_num [carA])
      (by norm_num [carA]) (by norm_num [carA]) (by norm_num [carA])
      (by norm_num [carA]) (by norm_num [carA, luck_lo])
      (by norm_num [carA, luck_hi])⟩

/-- Claim C9: holding drivetrain, skill level and the drawn luck factor
fixed, with all inputs valid, `time_taken` is strictly decreasing in
horsepower and strictly increasing in `min_weight_kg`. -/
theorem time_taken_strict_mono (car : Entrant) (h₁ h₂ w₁ w₂ lf : ℚ)
    (hs1 : 1 ≤ car.skillLevel) (hs2 : car.skillLevel ≤ 100)
    (hl1 : 1 ≤ car.luckLevel) (hl2 : car.luckLevel ≤ 100)
    (hlo : luck_lo car.luckLevel ≤ lf) (hhi : lf ≤ luck_hi car.luckLevel)
    (hch : 0 < car.horsepower) (hcw : 0 < car.minWeightKg)
    (hh0 : 0 < h₁) (hh : h₁ < h₂) (hw0 : 0 < w₁) (hw : w₁ < w₂) :
    time_taken { car with horsepower := h₂ } lf <
        time_taken { car with horsepower := h₁ } lf ∧
      time_taken { car with minWeightKg := w₁ } lf <
        time_taken { car with minWeightKg := w₂ } lf := by
  have hB := drivetrain_bonus_pos car.drivetrain
  have hS := skill_factor_pos car.skillLevel hs1
  have hL := luck_factor_pos car.luckLevel lf hl2 hlo
  constructor
  · exact div_lt_div_of_pos_left (by norm_num)
      (performance_score_pos _ lf hh0 hcw hs1 hl2 hlo)
      (mul_lt_mul_of_pos_right
        (mul_lt_mul_of_pos_right
          (mul_lt_mul_of_pos_right
            ((div_lt_div_iff_of_pos_right hcw).mpr hh) hB) hS) hL)
  · exact div_lt_div_of_pos_left (by norm_num)
      (performance_score_pos _ lf hch (by linarith) hs1 hl2 hlo)
      (mul_lt_mul_of_pos_right
        (mul_lt_mul_of_pos_right
          (mul_lt_mul_of_pos_right
            (div_lt_div_of_pos_left hch hw0 hw) hB) hS) hL)

/-- Witness for C9 at `carA`, horsepower 100 vs 200, weight 900 vs 1000,
luck factor 1. -/
theorem time_taken_strict_mono_witness :
    (1 ≤ carA.skillLevel ∧ carA.skillLevel ≤ 100 ∧ 1 ≤ carA.luckLevel ∧
      carA.luckLevel ≤ 100 ∧ luck_lo carA.luckLevel ≤ 1 ∧
      (1 : ℚ) ≤ luck_hi carA.luckLevel ∧ 0 < carA.horsepower ∧
      0 < carA.minWeightKg ∧ (0 : ℚ) < 100 ∧ (100 : ℚ) < 200 ∧
      (0 : ℚ) < 900 ∧ (900 : ℚ) < 1000) ∧
    (time_taken { carA with horsepower := 200 } 1 <
        time_taken { carA with horsepower := 100 } 1 ∧
      time_taken { carA with minWeightKg := 900 } 1 <
        time_taken { carA with minWeightKg := 1000 } 1) :=
  ⟨by norm_num [carA, luck_lo, luck_hi],
    time_taken_strict_mono carA 100 200 900 1000 1 (by norm_num [carA])
      (by norm_num [carA]) (by norm_num [carA]) (by norm_num [carA])
      (by norm_num [carA, luck_lo]) (by norm_num [carA, luck_hi])
      (by norm_num [carA]) (by norm_num [carA]) (by norm_num)
      (by norm_num) (by norm_num) (by norm_num)⟩

/-- Claim C10: the 1.05 drivetrain bonus applies exactly when the
drivetrain string is `"4WD"` (case-sensitive, exact match); any other
string — including `"4wd"` or `"AWD"` — gets bonus 1.0. -/
theorem drivetrain_bonus_iff (d : String) :
    (drivetrain_bonus d = 21/20 ↔ d = "4WD") ∧
      (¬ d = "4WD" → drivetrain_bonus d = 1) := by
  by_cases h : d = "4WD"
  · subst h
    simp [drivetrain_bonus]
  · unfold drivetrain_bonus
    rw [if_neg h]
    exact ⟨⟨fun hq => absurd hq (by norm_num), fun hd => absurd hd h⟩,
      fun _ => rfl⟩

/-- Witness for C10 at the lowercase variant `"4wd"`. -/
theorem drivetrain_bonus_iff_witness :
    ¬ "4wd" = "4WD" ∧ drivetrain_bonus "4wd" = 1 :=
  ⟨by decide, (drivetrain_bonus_iff "4wd").2 (by decide)⟩

/-- Claim C4: with at least 2 entrants, a fee debit of 1000 is emitted
exactly once for each distinct team fielding an entrant (once per team,
not once per car), and every fee debit precedes every simulation step
in the handler's trace. -/
theorem fee_once_per_team_before_sim
    (cars : List Entrant) (luck : ℕ → ℚ) (h2 : 2 ≤ cars.length)
    (t : String) (ht : t ∈ teamsOf cars) :
    (runRace cars luck).count (Event.feeDebit t 1000) = 1 ∧
      ∀ (i j : ℕ) (hi : i < (runRace cars luck).length)
        (hj : j < (runRace cars luck).length),
        ((runRace cars luck)[i]).isFee = true →
        ((runRace cars luck)[j]).isSim = true → i < j := by
  rw [runRace_of_two_le cars luck h2]
  constructor
  · rw [List.count_append]
    have hinj : Function.Injective fun s => Event.feeDebit s FEE := by
      intro a b hab
      simpa using hab
    have h1 : ((uniqueFirst (teamsOf cars)).map
        fun s => Event.feeDebit s FEE).count (Event.feeDebit t 1000) = 1 := by
      rw [show Event.feeDebit t 1000 = (fun s => Event.feeDebit s FEE) t
          from rfl,
        List.count_map_of_injective _ _ hinj, count_uniqueFirst t _ ht]
    have h0 : ((List.range cars.length).map Event.simulate ++
        [Event.prizeCredit
          (sortResults (simulateAll cars luck)).headI.team
          (PRIZE cars)]).count (Event.feeDebit t 1000) = 0 := by
      rw [List.count_eq_zero]
      intro hmem
      rcases List.mem_append.mp hmem with h | h
      · obtain ⟨a, -, ha⟩ := List.mem_map.mp h
        exact Event.noConfusion ha
      · rw [List.mem_singleton] at h
        exact Event.noConfusion h
    rw [h1, h0]
  · intro i j hi hj hpi hqj
    exact index_lt_of_append Event.isFee Event.isSim _ _
      (by
        intro e he
        rcases List.mem_append.mp he with h | h
        · obtain ⟨a, -, rfl⟩ := List.mem_map.mp h
          rfl
        · rw [List.mem_singleton] at h
          subst h
          rfl)
      (by
        intro e he
        obtain ⟨a, -, rfl⟩ := List.mem_map.mp he
        rfl)
      i j hi hj hpi hqj

/-- Witness for C4 at the two-entrant snapshot `[carA, carB]`, team
`"Team A"`. -/
theorem fee_once_per_team_before_sim_witness :
    (2 ≤ [carA, carB].length ∧ "Team A" ∈ teamsOf [carA, carB]) ∧
      ((runRace [carA, carB] fun _ => 1).count
          (Event.feeDebit "Team A" 1000) = 1 ∧
        ∀ (i j : ℕ) (hi : i < (runRace [carA, carB] fun _ => 1).length)
          (hj : j < (runRace [carA, carB] fun _ => 1).length),
          ((runRace [carA, carB] fun _ => 1)[i]).isFee = true →
          ((runRace [carA, carB] fun _ => 1)[j]).isSim = true → i < j) :=
  ⟨⟨by decide, by simp [teamsOf, carA]⟩,
    fee_once_per_team_before_sim [carA, carB] (fun _ => 1) (by decide)
      "Team A" (by simp [teamsOf, carA])⟩

/-- Claim C5: for a race that passes validation, the computed prize pool
is `0.8 * 1000` times the number of distinct teams fielding at least one
entrant — a function of the set of team names, not of the car count. -/
theorem prize_pool_eq_distinct_teams (cars : List Entrant)
    (h2 : 2 ≤ cars.length) :
    PRIZE cars = (4/5) * (1000 : ℚ) * ((teamsOf cars).toFinset.card : ℚ) := by
  rw [PRIZE, FEE, length_uniqueFirst]
  ring

/-- Witness for C5 at `[carA, carB]` (two distinct teams, pool 1600). -/
theorem prize_pool_eq_distinct_teams_witness :
    2 ≤ [carA, carB].length ∧
      PRIZE [carA, carB] =
        (4/5) * (1000 : ℚ) * ((teamsOf [carA, carB]).toFinset.card : ℚ) :=
  ⟨by decide, prize_pool_eq_distinct_teams [carA, carB] (by decide)⟩

/-- Claim C6: in a completed race the trace contains exactly one prize
credit; it pays the full prize pool to the team of the top-ranked row of
the sorted results, and no other team is credited. -/
theorem prize_credit_unique (cars : List Entrant) (luck : ℕ → ℚ)
    (h2 : 2 ≤ cars.length) :
    (runRace cars luck).filter Event.isPrize =
      [Event.prizeCredit
        (sortResults (simulateAll cars luck)).headI.team (PRIZE cars)] := by
  rw [runRace_of_two_le cars luck h2, List.filter_append, List.filter_append]
  have hf : ((uniqueFirst (teamsOf cars)).map
      fun s => Event.feeDebit s FEE).filter Event.isPrize = [] := by
    rw [List.filter_eq_nil_iff]
    intro e he
    obtain ⟨a, -, rfl⟩ := List.mem_map.mp he
    simp [Event.isPrize]
  have hs : ((List.range cars.length).map Event.simulate).filter
      Event.isPrize = [] := by
    rw [List.filter_eq_nil_iff]
    intro e he
    obtain ⟨a, -, rfl⟩ := List.mem_map.mp he
    simp [Event.isPrize]
  rw [hf, hs]
  rfl

/-- Witness for C6 at the two-entrant snapshot `[carA, carB]`. -/
theorem prize_credit_unique_witness :
    2 ≤ [carA, carB].length ∧
      (runRace [carA, carB] fun _ => 1).filter Event.isPrize =
        [Event.prizeCredit
          (sortResults (simulateAll [carA, carB] fun _ => 1)).headI.team
          (PRIZE [carA, carB])] :=
  ⟨by decide, prize_credit_unique [carA, carB] (fun _ => 1) (by decide)⟩

end RallyApp
